import Mathlib

/-!
Shallow embedding of the status-polling, deployment and workflow logic of the
`api_automation_dataPopulation` repository (files `services.py`,
`deploy_rest_api.py`, `main.py`), together with theorems settling the claims
about that logic.

Modelling conventions:
* Python strings are modelled as Lean `String` (or `List Char` where character
  level reasoning is needed); `str.lower()` is modelled as ASCII lowercasing.
* JSON objects returned by the vendor endpoints are modelled as structures with
  total fields (a `dict.get` with a default only matters for missing keys,
  which the structure model fixes up front).
* Wall-clock time is modelled by the only operations the code performs on it:
  `time.time() - start_time` is an `elapsed : Nat` counter that each
  `time.sleep(poll_interval_seconds)` advances by exactly
  `poll_interval_seconds`; HTTP requests take zero model time.
* An HTTP poll outcome (status code / parsed JSON / raised exception) is a
  value of an inductive type; the endpoint is a function from the attempt
  number to such outcomes.
-/

/-! ## Data model: the nested JSON of the data-planes-status endpoint -/

/-- A service entry inside a capability (`cap.get('services', [])` element). -/
structure Service where
  name : String
  status : String
deriving Repr, DecidableEq

/-- A capability entry of a dataplane (`dp.get('capabilities', [])` element). -/
structure Capability where
  capability : String
  capability_instance_id : String
  capability_type : String
  status : String
  services : List Service
deriving Repr, DecidableEq

/-- A dataplane entry of the data-planes-status response. -/
structure Dataplane where
  dp_id : String
  status : String
  message : String
  tibtunnel_connected : Bool
  capabilities : List Capability
deriving Repr, DecidableEq

/-- Outcome of one HTTP poll of a status endpoint, as the code observes it:
a 200 response with its parsed `dataplanes` list, a non-200 status code, or a
raised exception (connection error, JSON error, ...). -/
inductive Poll where
  | ok (dataplanes : List Dataplane)
  | httpError (code : Nat)
  | exn
deriving Repr, DecidableEq

/-! ## `sanitize_app_name` (deploy_rest_api.py, lines 19-38)

The Python pipeline is: `lower()`, `replace('_','-')`,
`re.sub(r'[^a-z0-9-]','',·)`, `strip('-')`, `re.sub(r'-+','-',·)`.
Strings are modelled as `List Char`; `lower()` as ASCII `Char.toLower`. -/

/-- `name = app_name.lower()` (ASCII lowercasing). -/
def pyLower (s : List Char) : List Char := s.map Char.toLower

/-- `name = name.replace('_', '-')`. -/
def replaceUnderscores (s : List Char) : List Char :=
  s.map (fun c => if c = '_' then '-' else c)

/-- The character class `[a-z0-9-]` of the removal regex. -/
def allowedChar (c : Char) : Bool :=
  (decide ('a' ≤ c) && decide (c ≤ 'z')) ||
  (decide ('0' ≤ c) && decide (c ≤ '9')) || decide (c = '-')

/-- `name = re.sub(r'[^a-z0-9-]', '', name)`. -/
def removeDisallowed (s : List Char) : List Char := s.filter allowedChar

/-- Drop a leading run of hyphens (the leading half of `strip('-')`). -/
def dropLeadHyphens : List Char → List Char
  | [] => []
  | c :: rest => if c = '-' then dropLeadHyphens rest else c :: rest

/-- `name = name.strip('-')`: remove leading and trailing hyphen runs. -/
def stripHyphens (s : List Char) : List Char :=
  ((dropLeadHyphens s).reverse |> dropLeadHyphens).reverse

/-- Worker for `re.sub(r'-+', '-', name)`: the flag records whether the
previously emitted character was a hyphen. -/
def collapseAux : Bool → List Char → List Char
  | _, [] => []
  | prevHyphen, c :: rest =>
    if c = '-' then
      if prevHyphen then collapseAux true rest
      else '-' :: collapseAux true rest
    else c :: collapseAux false rest

/-- `name = re.sub(r'-+', '-', name)`. -/
def collapseHyphens (s : List Char) : List Char := collapseAux false s

/-- `sanitize_app_name` from `deploy_rest_api.py`. -/
def sanitize_app_name (app_name : List Char) : List Char :=
  collapseHyphens (stripHyphens (removeDisallowed (replaceUnderscores (pyLower app_name))))

/-- Two consecutive hyphens occur somewhere in the list. -/
def hasDoubleHyphen : List Char → Bool
  | [] => false
  | [_] => false
  | a :: b :: rest => (a = '-' && b = '-') || hasDoubleHyphen (b :: rest)

/-- The shape claimed for sanitized names: only `[a-z0-9-]` characters, no
leading hyphen, no trailing hyphen, no two consecutive hyphens. -/
def goodName (s : List Char) : Bool :=
  s.all allowedChar && !(s.head? = some '-' : Bool) &&
  !(s.getLast? = some '-' : Bool) && !hasDoubleHyphen s

/-! ## `check_dataplane_status` (services.py, lines 810-1101)

The per-poll aggregation of `all_green` over the nested dataplane /
capability / service statuses, the bounded polling loop, and the timeout
reporting (including the final status fetch after the timeout). -/

/-- A dataplane is examined by the loop body iff no target `dataplane_id` was
given or its `dp_id` matches it (`if dataplane_id and dp_id != dataplane_id:
continue`). -/
def dpExamined (target : Option String) (dp : Dataplane) : Bool :=
  match target with
  | none => true
  | some t => dp.dp_id == t

/-- The service check of the capability loop: the block
`if svc_status not in ['green', 'absent']` always reaches
`all_green = False` once entered, so a service keeps `all_green` alive iff its
status is `green` or `absent`. -/
def svcKeepsGreen (svc : Service) : Bool :=
  svc.status == "green" || svc.status == "absent"

/-- All services of a capability pass the service check.  (The capability's
own `status` is only counted for display; it never touches `all_green`.) -/
def capServicesOk (cap : Capability) : Bool :=
  cap.services.all svcKeepsGreen

/-- One iteration of the `for idx, dp in enumerate(dataplanes, 1)` loop, as it
acts on the pair `(all_green, target_found)`. -/
def dpFoldStep (target : Option String) (acc : Bool × Bool) (dp : Dataplane) :
    Bool × Bool :=
  if !dpExamined target dp then acc
  else
    ((acc.1 && dp.capabilities.all capServicesOk) && (dp.status == "green"), true)

/-- The aggregate `all_green` boolean computed by one successful (HTTP 200,
nonempty `dataplanes`) poll, including the final
`if dataplane_id and not target_found: all_green = False` adjustment. -/
def pollAllGreen (target : Option String) (dataplanes : List Dataplane) : Bool :=
  let acc := dataplanes.foldl (dpFoldStep target) (true, false)
  match target with
  | some _ => if !acc.2 then false else acc.1
  | none => acc.1

/-- The per-dataplane summary dict appended to `dataplane_statuses` by the
polling loop. -/
structure DpSummary where
  id : String
  status : String
  tibtunnel : Bool
  cap_green : Nat
  cap_total : Nat
  /-- `non_green_caps` is built by the in-loop summary; the final status fetch
  after a timeout builds summaries without this key (modelled `none`). -/
  non_green_caps : Option (List String)
deriving Repr, DecidableEq

/-- Summary entry built by the polling loop for an examined dataplane. -/
def mkLoopSummary (dp : Dataplane) : DpSummary :=
  { id := dp.dp_id
    status := dp.status
    tibtunnel := dp.tibtunnel_connected
    cap_green := (dp.capabilities.filter (fun cap => cap.status == "green")).length
    cap_total := dp.capabilities.length
    non_green_caps := some ((dp.capabilities.filter (fun cap => !(cap.status == "green"))).map
      (fun cap => cap.capability ++ ":" ++ cap.status)) }

/-- Summary entry built by the final status fetch after the timeout. -/
def mkFinalSummary (dp : Dataplane) : DpSummary :=
  { id := dp.dp_id
    status := dp.status
    tibtunnel := dp.tibtunnel_connected
    cap_green := (dp.capabilities.filter (fun cap => cap.status == "green")).length
    cap_total := dp.capabilities.length
    non_green_caps := none }

/-- The dict returned by `check_dataplane_status`. -/
structure DpResult where
  success : Bool
  all_green : Bool
  dataplanes : List Dataplane
  dataplane_statuses : List DpSummary
  elapsed_time : Nat
  attempts : Nat
  error : Option String
deriving Repr, DecidableEq

/-- The result built after the timeout break: one final status fetch; when it
returns 200 with a nonempty `dataplanes` list the summaries of that final poll
are reported, otherwise the fall-through return with empty lists is taken. -/
def dpTimeoutResult (finalResp : Poll) (elapsed attempts : Nat) : DpResult :=
  match finalResp with
  | .ok dps =>
    if dps.isEmpty then
      { success := false, all_green := false, dataplanes := [],
        dataplane_statuses := [], elapsed_time := elapsed, attempts := attempts,
        error := some "Timeout reached" }
    else
      { success := false, all_green := false, dataplanes := dps,
        dataplane_statuses := dps.map mkFinalSummary, elapsed_time := elapsed,
        attempts := attempts, error := some "Timeout reached" }
  | _ =>
    { success := false, all_green := false, dataplanes := [],
      dataplane_statuses := [], elapsed_time := elapsed, attempts := attempts,
      error := some "Timeout reached" }

/-- The success result returned when `all_green` holds for a poll. -/
def dpSuccessResult (target : Option String) (dps : List Dataplane)
    (elapsed attempts : Nat) : DpResult :=
  { success := true, all_green := true, dataplanes := dps,
    dataplane_statuses := (dps.filter (dpExamined target)).map mkLoopSummary,
    elapsed_time := elapsed, attempts := attempts, error := none }

/-- The `while True` polling loop of `check_dataplane_status`.  `responses n`
is the outcome of the poll issued by attempt number `n` (1-based) and
`finalResp` the outcome of the final fetch after a timeout.  Each iteration
increments `attempts`, re-checks the elapsed time and either breaks into the
timeout path, returns the success dict, or sleeps `pollInterval` and loops. -/
def check_dataplane_status_loop (target : Option String) (responses : Nat → Poll)
    (finalResp : Poll) (maxWait pollInterval : Nat) (hp : 0 < pollInterval)
    (elapsed attempts : Nat) : DpResult :=
  if elapsed ≥ maxWait then
    dpTimeoutResult finalResp elapsed (attempts + 1)
  else
    match responses (attempts + 1) with
    | .ok dps =>
      if dps.isEmpty then
        check_dataplane_status_loop target responses finalResp maxWait
          pollInterval hp (elapsed + pollInterval) (attempts + 1)
      else if pollAllGreen target dps then
        dpSuccessResult target dps elapsed (attempts + 1)
      else
        check_dataplane_status_loop target responses finalResp maxWait
          pollInterval hp (elapsed + pollInterval) (attempts + 1)
    | .httpError _ =>
      check_dataplane_status_loop target responses finalResp maxWait
        pollInterval hp (elapsed + pollInterval) (attempts + 1)
    | .exn =>
      check_dataplane_status_loop target responses finalResp maxWait
        pollInterval hp (elapsed + pollInterval) (attempts + 1)
termination_by maxWait - elapsed
decreasing_by all_goals omega

/-- A failing poll attempt in the sense of the retry logic: non-200 status
code, raised exception, or a 200 response without dataplanes. -/
def failingPoll (r : Poll) : Bool :=
  match r with
  | .ok dps => dps.isEmpty
  | .httpError _ => true
  | .exn => true

/-- `check_dataplane_status`: the loop entered with `elapsed = 0`,
`attempts = 0`. -/
def check_dataplane_status (target : Option String) (responses : Nat → Poll)
    (finalResp : Poll) (maxWait pollInterval : Nat) (hp : 0 < pollInterval) :
    DpResult :=
  check_dataplane_status_loop target responses finalResp maxWait pollInterval hp 0 0

/-! ## `check_bwce_capability_status` / `check_flogo_capability_status`
(services.py, lines 1853-1962 and 1964-2073)

The two functions are textually identical except for the capability name
matched (`'BWCE'` vs `'FLOGO'`) and the log strings, so they are embedded as
two instances of one definition parametrised by that name. -/

/-- The dict returned by the capability status checkers. -/
structure CapResult where
  success : Bool
  status : String
  elapsed_time : Nat
  attempts : Nat
deriving Repr, DecidableEq

/-- `for dp in dataplanes: if dp.get('dp_id') == dataplane_id: ... break`:
only the first matching dataplane is ever processed. -/
def findDp (dataplane_id : String) (dataplanes : List Dataplane) : Option Dataplane :=
  dataplanes.find? (fun dp => dp.dp_id == dataplane_id)

/-- `for cap in capabilities: if cap.get('capability') == <NAME> and
cap.get('capability_instance_id') == capability_instance_id: ...` -/
def findCap (capName capability_instance_id : String) (capabilities : List Capability) :
    Option Capability :=
  capabilities.find? (fun cap =>
    cap.capability == capName && cap.capability_instance_id == capability_instance_id)

/-- What one loop iteration decides from the poll outcome: return the green
success dict, or sleep `poll_interval_seconds` and retry.  Every branch of the
body other than the `cap_status == 'green'` return sleeps and retries. -/
def capAttemptDecision (capName dataplane_id capability_instance_id : String)
    (r : Poll) : Bool :=
  match r with
  | .ok dps =>
    if dps.isEmpty then false
    else
      match findDp dataplane_id dps with
      | none => false
      | some dp =>
        match findCap capName capability_instance_id dp.capabilities with
        | none => false
        | some cap => cap.status == "green"
  | .httpError _ => false
  | .exn => false

/-- The `while True` loop shared by the BWCE and Flogo capability checkers. -/
def check_capability_status_loop (capName dataplane_id capability_instance_id : String)
    (responses : Nat → Poll) (maxWait pollInterval : Nat) (hp : 0 < pollInterval)
    (elapsed attempts : Nat) : CapResult :=
  if elapsed ≥ maxWait then
    { success := false, status := "timeout", elapsed_time := elapsed,
      attempts := attempts + 1 }
  else if capAttemptDecision capName dataplane_id capability_instance_id
      (responses (attempts + 1)) then
    { success := true, status := "green", elapsed_time := elapsed,
      attempts := attempts + 1 }
  else
    check_capability_status_loop capName dataplane_id capability_instance_id
      responses maxWait pollInterval hp (elapsed + pollInterval) (attempts + 1)
termination_by maxWait - elapsed
decreasing_by omega

/-- `check_bwce_capability_status`. -/
def check_bwce_capability_status (dataplane_id capability_instance_id : String)
    (responses : Nat → Poll) (maxWait pollInterval : Nat) (hp : 0 < pollInterval) :
    CapResult :=
  check_capability_status_loop "BWCE" dataplane_id capability_instance_id
    responses maxWait pollInterval hp 0 0

/-- `check_flogo_capability_status`. -/
def check_flogo_capability_status (dataplane_id capability_instance_id : String)
    (responses : Nat → Poll) (maxWait pollInterval : Nat) (hp : 0 < pollInterval) :
    CapResult :=
  check_capability_status_loop "FLOGO" dataplane_id capability_instance_id
    responses maxWait pollInterval hp 0 0

/-! ## `_wait_for_bwce_build` (deploy_rest_api.py, lines 469-513) -/

/-- Outcome of one poll of the build-status endpoint: a 200 response whose
JSON carries `status` (missing key gives `''` via `result.get('status','')`),
a 200 response whose JSON parsing raises, or a non-200 status code. -/
inductive BuildPoll where
  | ok (status : String)
  | parseError
  | httpError (code : Nat)
deriving Repr, DecidableEq

/-- `status = result.get('status', '').lower()` (ASCII lowercasing, on
`String`). -/
def strLower (s : String) : String := String.mk (s.data.map Char.toLower)

/-- `if status == 'success' or status == 'completed'`. -/
def buildStatusDone (s : String) : Bool := s == "success" || s == "completed"

/-- `elif status == 'failed' or status == 'error'`. -/
def buildStatusFailed (s : String) : Bool := s == "failed" || s == "error"

/-- A poll outcome on which the loop returns (either value): a parsed 200
response whose lowercased status is terminal. -/
def buildTerminal (r : BuildPoll) : Bool :=
  match r with
  | .ok st => buildStatusDone (strLower st) || buildStatusFailed (strLower st)
  | _ => false

/-- A poll outcome on which the loop returns `True`. -/
def buildDone (r : BuildPoll) : Bool :=
  match r with
  | .ok st => buildStatusDone (strLower st)
  | _ => false

/-- The `while time.time() - start_time < max_wait` loop of
`_wait_for_bwce_build`: on a done status return `True`, on a failed status
return `False`, on anything else (other status, parse error, non-200) sleep
`poll_interval` and retry; once the elapsed time is no longer below
`max_wait`, fall out of the loop and return `False`. -/
def wait_for_bwce_build_loop (responses : Nat → BuildPoll) (maxWait pollInterval : Nat)
    (hp : 0 < pollInterval) (elapsed attempts : Nat) : Bool :=
  if elapsed < maxWait then
    match responses (attempts + 1) with
    | .ok st =>
      if buildStatusDone (strLower st) then true
      else if buildStatusFailed (strLower st) then false
      else wait_for_bwce_build_loop responses maxWait pollInterval hp
        (elapsed + pollInterval) (attempts + 1)
    | .parseError =>
      wait_for_bwce_build_loop responses maxWait pollInterval hp
        (elapsed + pollInterval) (attempts + 1)
    | .httpError _ =>
      wait_for_bwce_build_loop responses maxWait pollInterval hp
        (elapsed + pollInterval) (attempts + 1)
  else false
termination_by maxWait - elapsed
decreasing_by all_goals omega

/-- `_wait_for_bwce_build` (the loop entered at time zero). -/
def wait_for_bwce_build (responses : Nat → BuildPoll) (maxWait pollInterval : Nat)
    (hp : 0 < pollInterval) : Bool :=
  wait_for_bwce_build_loop responses maxWait pollInterval hp 0 0

/-! ## `main` (main.py): per-prefix workflow skeleton (lines 28-73)

`main` iterates over `target_prefixes`; for each prefix it resets the summary
dict, attempts Admin Login (retrying once with a generated RelayState), and on
failure prints the summary and `continue`s to the next prefix.  The remainder
of the workflow (steps 2 onward) is abstracted as a continuation `rest`; the
theorems about this skeleton hold for every such continuation, which is
exactly the content of the claim (nothing after a failed login runs). -/

/-- Observable actions of the workflow, for stating what ran. -/
inductive StepEvent where
  /-- A call of `admin_auth.run_login_flow`; the flag records whether the
  generated RelayState argument was passed (the retry). -/
  | adminLoginAttempt (usedGeneratedRelayState : Bool)
  /-- Any action of the post-login part of the workflow. -/
  | laterStep (label : String)
deriving Repr, DecidableEq

/-- The summary dict initialised at the top of each prefix iteration. -/
def initSummary : List (String × String) :=
  [("Admin Login", "Pending"),
   ("Provision Subscription", "Pending"),
   ("Admin Logout", "Pending"),
   ("CP Login", "Pending"),
   ("Invite New User", "Pending"),
   ("CP Logout", "Pending"),
   ("Accept & Register User", "Pending"),
   ("Listing Users from CP", "Pending"),
   ("New User Login Verification", "Pending"),
   ("Register Dataplanes", "Pending"),
   ("Add Activation Server", "Pending"),
   ("Check Dataplane Status", "Pending"),
   ("Provision BWCE Capability", "Pending"),
   ("Provision Flogo Capability", "Pending"),
   ("Check Capability Status", "Pending"),
   ("Deploy BWCE Applications", "Pending"),
   ("Deploy Flogo Applications", "Pending")]

/-- `summary[key] = value` (every key written by `main` is present in the
initial dict, so assignment is an update of the existing entry). -/
def summarySet (s : List (String × String)) (key value : String) :
    List (String × String) :=
  s.map (fun kv => if kv.1 == key then (kv.1, value) else kv)

/-- One iteration of the `for target_prefix in target_prefixes` loop, to the
granularity the claim needs.  `firstLogin` / `retryLogin` are the outcomes of
the two `run_login_flow` calls; `rest` is everything from step 2 onward,
taking the summary after a passed login and returning the summary finally
printed together with the events it performs.  The value returned here is the
summary passed to `print_summary` for this prefix plus the full event list. -/
def tenant_flow_iteration
    (rest : List (String × String) → List (String × String) × List StepEvent)
    (firstLogin retryLogin : Bool) :
    List (String × String) × List StepEvent :=
  let summary := initSummary
  if firstLogin then
    let summary := summarySet summary "Admin Login" "Pass"
    let (s, evs) := rest summary
    (s, StepEvent.adminLoginAttempt false :: evs)
  else if retryLogin then
    let summary := summarySet summary "Admin Login" "Pass"
    let (s, evs) := rest summary
    (s, StepEvent.adminLoginAttempt false :: StepEvent.adminLoginAttempt true :: evs)
  else
    (summarySet summary "Admin Login" "Fail",
     [StepEvent.adminLoginAttempt false, StepEvent.adminLoginAttempt true])

/-- The `for target_prefix in target_prefixes` loop of `main`: each prefix is
processed in turn with a fresh summary, independently of the others
(`continue` only ends the current iteration). -/
def mainWorkflow
    (rest : List (String × String) → List (String × String) × List StepEvent)
    (loginOutcomes : List (Bool × Bool)) :
    List (List (String × String) × List StepEvent) :=
  loginOutcomes.map (fun o => tenant_flow_iteration rest o.1 o.2)

/-! ## `main` (main.py): Register Dataplanes step (lines 280-457)

The `dpCount > 1` branch of the registration loop (lines 309-316) assigns
`base_name`, `base_namespace` and `base_sa`, then builds
`dp_config['namespace']` from the identifier `baseNamespace` (line 315), which
is bound nowhere in `main.py` (the only occurrence of `baseNamespace` in the
file is that read; every other local uses snake_case).  Reading an unbound
identifier raises `NameError`, which the step's
`except Exception` handler (line 453) turns into
`summary["Register Dataplanes"] = "Error"`. -/

/-- Python exceptions the modelled fragment can raise. -/
inductive PyError where
  | nameError (ident : String)
  | keyError (key : String)
deriving Repr, DecidableEq

/-- Reading identifier `x` under local environment `env`: an unbound name
raises `NameError`. -/
def envGet (env : List (String × String)) (x : String) : Except PyError String :=
  match env.lookup x with
  | some v => Except.ok v
  | none => Except.error (PyError.nameError x)

/-- `d[key]` on a dict modelled by an optional field: a missing key raises
`KeyError`. -/
def dictLookup (v : Option String) (key : String) : Except PyError String :=
  match v with
  | some s => Except.ok s
  | none => Except.error (PyError.keyError key)

/-- The `dataplane_config` dict from the configuration file; only the keys the
modelled fragment reads.  The field `nspace` models the Python key
`"namespace"` (a Lean keyword). -/
structure DataplaneConfig where
  name : Option String
  nspace : Option String
  serviceAccountName : Option String
deriving Repr, DecidableEq

/-- Lines 309-316: the unique-name block of iteration `i` when `dp_count > 1`.
The environment holds exactly the identifiers those lines bind
(lines 310-312); `baseNamespace` is not among them and has no enclosing
binding in `main.py`, so the f-string of line 315 raises `NameError`. -/
def uniqueNamesBlock (dataplane_config : DataplaneConfig) (i : Nat) :
    Except PyError (String × String × String) := do
  let env : List (String × String) :=
    [("base_name", dataplane_config.name.getD "Dp1"),
     ("base_namespace", dataplane_config.nspace.getD "default"),
     ("base_sa", dataplane_config.serviceAccountName.getD "tibco-sa")]
  let bn ← envGet env "base_name"
  let nameVal := bn ++ "-" ++ toString i
  let bns ← envGet env "baseNamespace"
  let nsVal := bns ++ "-" ++ toString i
  let bsa ← envGet env "base_sa"
  let saVal := bsa ++ "-" ++ toString i
  pure (nameVal, nsVal, saVal)

/-- Lines 305-319 of one loop iteration: copy the config, apply the
unique-name block when `dp_count > 1`, then print `dp_config['name']` and
`dp_config['namespace']` (dict reads that raise `KeyError` when absent). -/
def iterConfigNames (dataplane_config : DataplaneConfig) (dp_count i : Nat) :
    Except PyError (String × String) :=
  if dp_count > 1 then do
    let (nm, ns, _sa) ← uniqueNamesBlock dataplane_config i
    pure (nm, ns)
  else do
    let nm ← dictLookup dataplane_config.name "name"
    let ns ← dictLookup dataplane_config.nspace "namespace"
    pure (nm, ns)

/-- The per-dataplane record appended to `all_results`, to the granularity the
claims need. -/
structure RegRecord where
  index : Nat
  success : Bool
deriving Repr, DecidableEq

/-- The `for i in range(1, dp_count + 1)` loop.  `doRegister i` abstracts the
`register_dataplane` request of iteration `i` together with the rest of the
iteration (command execution, optional status check) and yields the record
appended to `all_results`; the second component of the result counts how many
times it was invoked, i.e. how many registration requests were issued.  An
exception escaping an iteration aborts the whole loop (the `try` is outside
it). -/
def register_dataplanes_loop (dataplane_config : DataplaneConfig) (dp_count : Nat)
    (doRegister : Nat → RegRecord) (i : Nat) (acc : List RegRecord) (calls : Nat) :
    Except PyError (List RegRecord) × Nat :=
  if i > dp_count then (Except.ok acc.reverse, calls)
  else
    match iterConfigNames dataplane_config dp_count i with
    | Except.error e => (Except.error e, calls)
    | Except.ok _ =>
      register_dataplanes_loop dataplane_config dp_count doRegister (i + 1)
        (doRegister i :: acc) (calls + 1)
termination_by dp_count + 1 - i

/-- The Register Dataplanes step (lines 284-457): run the loop under the
`try`, then set the summary value — `"Error"` when an exception was caught,
`"Pass (k/dp_count)"` when some registration succeeded, `"Fail"` when none
did, `"Skipped (dpCount=0)"` when `dp_count` is zero.  Returns the summary
value together with the number of registration requests issued. -/
def register_dataplanes_step (dataplane_config : DataplaneConfig) (dp_count : Nat)
    (doRegister : Nat → RegRecord) : String × Nat :=
  if dp_count > 0 then
    match register_dataplanes_loop dataplane_config dp_count doRegister 1 [] 0 with
    | (Except.error _, calls) => ("Error", calls)
    | (Except.ok results, calls) =>
      let successful := results.filter (fun r => r.success)
      if successful.length > 0 then
        ("Pass (" ++ toString successful.length ++ "/" ++ toString dp_count ++ ")", calls)
      else
        ("Fail", calls)
  else
    ("Skipped (dpCount=0)", 0)

/-! ## Lemmas about `sanitize_app_name` -/


theorem allowed_toLower {c : Char} (h : allowedChar c = true) : Char.toLower c = c := by
  unfold Char.toLower
  simp only [allowedChar, Bool.or_eq_true, Bool.and_eq_true, decide_eq_true_eq] at h
  have hn : ¬(Char.toNat c ≥ 65 ∧ Char.toNat c ≤ 90) := by
    rcases h with (⟨h1, h2⟩ | ⟨h1, h2⟩) | h1
    · have : 97 ≤ c.toNat := by
        simp only [Char.le_def, UInt32.le_def, BitVec.le_def] at h1; exact h1
      omega
    · have : c.toNat ≤ 57 := by
        simp only [Char.le_def, UInt32.le_def, BitVec.le_def] at h2; exact h2
      omega
    · subst h1; decide
  simp [hn]

theorem removeDisallowed_all (s : List Char) :
    (removeDisallowed s).all allowedChar = true := by
  rw [List.all_eq_true]
  intro a ha
  exact (List.mem_filter.mp ha).2

theorem dropLeadHyphens_subset (s : List Char) :
    ∀ x ∈ dropLeadHyphens s, x ∈ s := by
  induction s with
  | nil => simp [dropLeadHyphens]
  | cons c rest ih =>
    intro x hx
    by_cases hc : c = '-'
    · rw [dropLeadHyphens, if_pos hc] at hx
      exact List.mem_cons_of_mem _ (ih x hx)
    · rwa [dropLeadHyphens, if_neg hc] at hx

theorem dropLeadHyphens_head (s : List Char) :
    (dropLeadHyphens s).head? ≠ some '-' := by
  induction s with
  | nil => simp [dropLeadHyphens]
  | cons c rest ih =>
    by_cases hc : c = '-'
    · rwa [dropLeadHyphens, if_pos hc]
    · rw [dropLeadHyphens, if_neg hc]
      simp [hc]

theorem dropLeadHyphens_getLast (s : List Char) (h : s.getLast? ≠ some '-') :
    (dropLeadHyphens s).getLast? ≠ some '-' := by
  induction s with
  | nil => exact h
  | cons c rest ih =>
    by_cases hc : c = '-'
    · rw [dropLeadHyphens, if_pos hc]
      cases rest with
      | nil => subst hc; simp at h
      | cons d t =>
        apply ih
        rwa [List.getLast?_cons_cons] at h
    · rwa [dropLeadHyphens, if_neg hc]

theorem stripHyphens_subset (s : List Char) : ∀ x ∈ stripHyphens s, x ∈ s := by
  intro x hx
  unfold stripHyphens at hx
  rw [List.mem_reverse] at hx
  have := dropLeadHyphens_subset _ x hx
  rw [List.mem_reverse] at this
  exact dropLeadHyphens_subset _ x this

theorem stripHyphens_head (s : List Char) : (stripHyphens s).head? ≠ some '-' := by
  unfold stripHyphens
  rw [List.head?_reverse]
  apply dropLeadHyphens_getLast
  rw [List.getLast?_reverse]
  exact dropLeadHyphens_head s

theorem stripHyphens_getLast (s : List Char) : (stripHyphens s).getLast? ≠ some '-' := by
  unfold stripHyphens
  rw [List.getLast?_reverse]
  exact dropLeadHyphens_head _

theorem collapseAux_subset (b : Bool) (s : List Char) :
    ∀ x ∈ collapseAux b s, x ∈ s := by
  induction s generalizing b with
  | nil => simp [collapseAux]
  | cons c rest ih =>
    intro x hx
    by_cases hc : c = '-'
    · rw [collapseAux, if_pos hc] at hx
      cases b with
      | true => exact List.mem_cons_of_mem _ (ih true x hx)
      | false =>
        simp only [if_neg (by simp : ¬(false = true))] at hx
        rcases List.mem_cons.mp hx with rfl | hx
        · simp [hc]
        · exact List.mem_cons_of_mem _ (ih true x hx)
    · rw [collapseAux, if_neg hc] at hx
      rcases List.mem_cons.mp hx with rfl | hx
      · simp
      · exact List.mem_cons_of_mem _ (ih false x hx)

theorem collapseAux_head_true (s : List Char) :
    (collapseAux true s).head? ≠ some '-' := by
  induction s with
  | nil => simp [collapseAux]
  | cons c rest ih =>
    by_cases hc : c = '-'
    · rw [collapseAux, if_pos hc, if_pos rfl]
      exact ih
    · rw [collapseAux, if_neg hc]
      simp [hc]

theorem collapseAux_head_false (s : List Char) (h : s.head? ≠ some '-') :
    (collapseAux false s).head? = s.head? := by
  cases s with
  | nil => rfl
  | cons c rest =>
    have hc : c ≠ '-' := by simpa using h
    rw [collapseAux, if_neg hc]
    simp

theorem collapseAux_eq_nil (b : Bool) (s : List Char)
    (h : collapseAux b s = []) : ∀ x ∈ s, x = '-' := by
  induction s generalizing b with
  | nil => simp
  | cons c rest ih =>
    intro x hx
    by_cases hc : c = '-'
    · rw [collapseAux, if_pos hc] at h
      cases b with
      | true =>
        rcases List.mem_cons.mp hx with rfl | hx
        · exact hc
        · exact ih true h x hx
      | false => simp at h
    · rw [collapseAux, if_neg hc] at h
      simp at h

theorem all_hyphen_getLast (s : List Char) (hne : s ≠ [])
    (h : ∀ x ∈ s, x = '-') : s.getLast? = some '-' := by
  induction s with
  | nil => exact absurd rfl hne
  | cons c rest ih =>
    cases rest with
    | nil => simpa using h c (by simp)
    | cons d t =>
      rw [List.getLast?_cons_cons]
      exact ih (by simp) (fun x hx => h x (List.mem_cons_of_mem _ hx))

theorem collapseAux_getLast (b : Bool) (s : List Char)
    (h : s.getLast? ≠ some '-') : (collapseAux b s).getLast? ≠ some '-' := by
  induction s generalizing b with
  | nil => exact h
  | cons c rest ih =>
    by_cases hc : c = '-'
    · subst hc
      cases rest with
      | nil => simp at h
      | cons d t =>
        rw [List.getLast?_cons_cons] at h
        rw [collapseAux, if_pos rfl]
        cases b with
        | true =>
          rw [if_pos rfl]
          exact ih true h
        | false =>
          rw [if_neg (by simp : ¬(false = true))]
          have hm : collapseAux true (d :: t) ≠ [] := by
            intro hnil
            exact h (all_hyphen_getLast _ (by simp) (collapseAux_eq_nil _ _ hnil))
          cases hx : collapseAux true (d :: t) with
          | nil => exact absurd hx hm
          | cons e u =>
            rw [List.getLast?_cons_cons, ← hx]
            exact ih true h
    · rw [collapseAux, if_neg hc]
      cases rest with
      | nil =>
        simp only [List.getLast?_singleton] at h
        show ((c :: collapseAux false []).getLast? ≠ some '-')
        simpa [collapseAux] using h
      | cons d t =>
        rw [List.getLast?_cons_cons] at h
        cases hx : collapseAux false (d :: t) with
        | nil => simpa using hc
        | cons e u =>
          rw [List.getLast?_cons_cons, ← hx]
          exact ih false h

theorem collapseAux_noDouble (b : Bool) (s : List Char) :
    hasDoubleHyphen (collapseAux b s) = false := by
  induction s generalizing b with
  | nil => simp [collapseAux, hasDoubleHyphen]
  | cons c rest ih =>
    by_cases hc : c = '-'
    · rw [collapseAux, if_pos hc]
      cases b with
      | true =>
        rw [if_pos rfl]
        exact ih true
      | false =>
        rw [if_neg (by simp : ¬(false = true))]
        cases hx : collapseAux true rest with
        | nil => simp [hasDoubleHyphen]
        | cons e u =>
          have he : e ≠ '-' := by
            have := collapseAux_head_true rest
            rw [hx] at this
            simpa using this
          have hdu := ih true
          rw [hx] at hdu
          simp [hasDoubleHyphen, he, hdu]
    · rw [collapseAux, if_neg hc]
      cases hx : collapseAux false rest with
      | nil => simp [hasDoubleHyphen]
      | cons e u =>
        have hdu := ih false
        rw [hx] at hdu
        simp [hasDoubleHyphen, hdu, hc]

theorem collapseAux_id (b : Bool) (s : List Char)
    (hd : hasDoubleHyphen s = false) (hb : b = true → s.head? ≠ some '-') :
    collapseAux b s = s := by
  induction s generalizing b with
  | nil => rfl
  | cons c rest ih =>
    by_cases hc : c = '-'
    · subst hc
      cases b with
      | true =>
        exact absurd (show ('-' :: rest).head? = some '-' from rfl) (hb rfl)
      | false =>
        rw [collapseAux, if_pos rfl, if_neg (by simp : ¬(false = true))]
        congr 1
        cases rest with
        | nil => rfl
        | cons d t =>
          have hdt : d ≠ '-' := by
            intro hdd
            rw [hasDoubleHyphen, hdd] at hd
            simp at hd
          have hrest : hasDoubleHyphen (d :: t) = false := by
            rw [hasDoubleHyphen] at hd
            simp only [Bool.or_eq_false_iff] at hd
            exact hd.2
          exact ih true hrest (fun _ => by simpa using hdt)
    · rw [collapseAux, if_neg hc]
      congr 1
      cases rest with
      | nil => rfl
      | cons d t =>
        have hrest : hasDoubleHyphen (d :: t) = false := by
          rw [hasDoubleHyphen] at hd
          simp only [Bool.or_eq_false_iff] at hd
          exact hd.2
        exact ih false hrest (by simp)

theorem allowedChar_ne_underscore {c : Char} (h : allowedChar c = true) : c ≠ '_' := by
  intro rfl_h
  subst rfl_h
  simp [allowedChar] at h

theorem dropLeadHyphens_id (s : List Char) (h : s.head? ≠ some '-') :
    dropLeadHyphens s = s := by
  cases s with
  | nil => rfl
  | cons c rest =>
    have hc : c ≠ '-' := by simpa using h
    rw [dropLeadHyphens, if_neg hc]

theorem sanitize_all_allowed (s : List Char) :
    (sanitize_app_name s).all allowedChar = true := by
  rw [List.all_eq_true]
  intro x hx
  unfold sanitize_app_name collapseHyphens at hx
  have h1 := collapseAux_subset _ _ x hx
  have h2 := stripHyphens_subset _ x h1
  have h3 := List.all_eq_true.mp (removeDisallowed_all (replaceUnderscores (pyLower s))) x h2
  exact h3

theorem sanitize_goodName (s : List Char) : goodName (sanitize_app_name s) = true := by
  have h1 := sanitize_all_allowed s
  have hhead : (sanitize_app_name s).head? ≠ some '-' := by
    unfold sanitize_app_name collapseHyphens
    rw [collapseAux_head_false _ (stripHyphens_head _)]
    exact stripHyphens_head _
  have hlast : (sanitize_app_name s).getLast? ≠ some '-' :=
    collapseAux_getLast _ _ (stripHyphens_getLast _)
  have hnd : hasDoubleHyphen (sanitize_app_name s) = false := collapseAux_noDouble _ _
  simp [goodName, h1, hhead, hlast, hnd]

theorem sanitize_fixes_good (t : List Char)
    (hall : t.all allowedChar = true)
    (hhead : t.head? ≠ some '-')
    (hlast : t.getLast? ≠ some '-')
    (hnd : hasDoubleHyphen t = false) :
    sanitize_app_name t = t := by
  have hmem : ∀ x ∈ t, allowedChar x = true := List.all_eq_true.mp hall
  have hlow : pyLower t = t := by
    unfold pyLower
    rw [List.map_congr_left (fun x hx => allowed_toLower (hmem x hx))]
    exact List.map_id t
  have hund : replaceUnderscores t = t := by
    unfold replaceUnderscores
    rw [List.map_congr_left (fun x hx => if_neg (allowedChar_ne_underscore (hmem x hx)))]
    exact List.map_id t
  have hrem : removeDisallowed t = t := by
    unfold removeDisallowed
    exact List.filter_eq_self.mpr hmem
  have hstrip : stripHyphens t = t := by
    unfold stripHyphens
    rw [dropLeadHyphens_id t hhead]
    rw [dropLeadHyphens_id t.reverse (by rwa [List.head?_reverse])]
    exact List.reverse_reverse t
  unfold sanitize_app_name collapseHyphens
  rw [hlow, hund, hrem, hstrip]
  exact collapseAux_id false t hnd (by simp)

theorem sanitize_idem (s : List Char) :
    sanitize_app_name (sanitize_app_name s) = sanitize_app_name s := by
  apply sanitize_fixes_good
  · exact sanitize_all_allowed s
  · unfold sanitize_app_name collapseHyphens
    rw [collapseAux_head_false _ (stripHyphens_head _)]
    exact stripHyphens_head _
  · exact collapseAux_getLast _ _ (stripHyphens_getLast _)
  · exact collapseAux_noDouble _ _

/-- C10: for every input string, `sanitize_app_name` returns either the empty
string or a string containing only lowercase ASCII letters, digits and
hyphens, with no leading hyphen, no trailing hyphen and no two consecutive
hyphens; moreover the function is idempotent. -/
theorem c10_sanitize_good_and_idempotent (s : List Char) :
    goodName (sanitize_app_name s) = true ∧
    sanitize_app_name (sanitize_app_name s) = sanitize_app_name s :=
  ⟨sanitize_goodName s, sanitize_idem s⟩

/-! ## Claims about `main`: C7 and C8 -/

/-- C7: when Admin Login fails for a prefix (first attempt and the retry with
a generated RelayState both fail), the printed summary marks Admin Login
"Fail" and every other workflow step still "Pending", nothing of the
remaining workflow runs (the result does not depend on the continuation
`rest`, and the event trace holds only the two login attempts), and the main
loop goes on to process the remaining prefixes. -/
theorem c7_failed_login_skips_rest
    (rest : List (String × String) → List (String × String) × List StepEvent)
    (os : List (Bool × Bool)) :
    tenant_flow_iteration rest false false =
      (summarySet initSummary "Admin Login" "Fail",
       [StepEvent.adminLoginAttempt false, StepEvent.adminLoginAttempt true]) ∧
    ((tenant_flow_iteration rest false false).1.all
      (fun kv => kv.1 == "Admin Login" || kv.2 == "Pending")) = true ∧
    (tenant_flow_iteration rest false false).1.lookup "Admin Login" = some "Fail" ∧
    mainWorkflow rest ((false, false) :: os) =
      tenant_flow_iteration rest false false :: mainWorkflow rest os := by
  have h0 : tenant_flow_iteration rest false false =
      (summarySet initSummary "Admin Login" "Fail",
       [StepEvent.adminLoginAttempt false, StepEvent.adminLoginAttempt true]) := rfl
  refine ⟨h0, ?_, ?_, rfl⟩
  · rw [h0]; decide
  · rw [h0]; decide

/-- C8: whenever `dpCount > 1`, the first iteration of the dataplane
registration loop raises `NameError` on the unbound identifier
`baseNamespace` before any registration request is issued, the step handler
records "Error" in the summary, and zero `register_dataplane` calls are made,
whatever the configuration and whatever the registration endpoint would
answer. -/
theorem c8_multi_dp_registration_always_errors
    (cfg : DataplaneConfig) (doRegister : Nat → RegRecord) (dp_count : Nat)
    (h : 1 < dp_count) :
    register_dataplanes_step cfg dp_count doRegister = ("Error", 0) := by
  have hforms : uniqueNamesBlock cfg 1 = Except.error (PyError.nameError "baseNamespace") := by
    simp [uniqueNamesBlock, envGet, List.lookup, Bind.bind, Except.bind]
  rw [register_dataplanes_step, if_pos (by omega : dp_count > 0)]
  rw [register_dataplanes_loop, if_neg (by omega : ¬(1 > dp_count))]
  rw [iterConfigNames, if_pos (by omega : dp_count > 1)]
  simp [hforms]

/-- Witness for C8 at a concrete configuration. -/
theorem c8_multi_dp_registration_always_errors_witness :
    1 < 2 ∧
    register_dataplanes_step ⟨none, none, none⟩ 2 (fun i => ⟨i, true⟩) = ("Error", 0) :=
  ⟨by decide, c8_multi_dp_registration_always_errors ⟨none, none, none⟩ (fun i => ⟨i, true⟩) 2 (by decide)⟩

/-! ## Lemmas about the polling loops -/

/-- Shifting an existential poll-success description across one retried attempt. -/

theorem poll_shift_iff (done term : Nat → Bool)
    (hdt : ∀ k, done k = true → term k = true)
    (e a p maxWait : Nat) (h0 : term (a + 1) = false) :
    ((∃ j, e + p + j * p < maxWait ∧ done (a + 1 + j + 1) = true ∧
        ∀ i, i < j → term (a + 1 + i + 1) = false)
      ↔ (∃ j, e + j * p < maxWait ∧ done (a + j + 1) = true ∧
        ∀ i, i < j → term (a + i + 1) = false)) := by
  constructor
  · rintro ⟨j, hj, hdone, hterm⟩
    refine ⟨j + 1, ?_, ?_, ?_⟩
    · have : e + (j + 1) * p = e + p + j * p := by ring
      omega
    · have : a + (j + 1) + 1 = a + 1 + j + 1 := by omega
      rw [this]; exact hdone
    · intro i hi
      cases i with
      | zero => simpa using h0
      | succ k =>
        have : a + (k + 1) + 1 = a + 1 + k + 1 := by omega
        rw [this]
        exact hterm k (by omega)
  · rintro ⟨j, hj, hdone, hterm⟩
    cases j with
    | zero =>
      rw [show a + 0 + 1 = a + 1 by omega] at hdone
      rw [hdt _ hdone] at h0
      exact absurd h0 (by simp)
    | succ k =>
      refine ⟨k, ?_, ?_, ?_⟩
      · have : e + (k + 1) * p = e + p + k * p := by ring
        omega
      · have : a + 1 + k + 1 = a + (k + 1) + 1 := by omega
        rw [this]; exact hdone
      · intro i hi
        have : a + 1 + i + 1 = a + (i + 1) + 1 := by omega
        rw [this]
        exact hterm (i + 1) (by omega)

theorem build_loop_true_iff (responses : Nat → BuildPoll) (maxWait p : Nat)
    (hp : 0 < p) :
    ∀ n e a, maxWait - e ≤ n →
    (wait_for_bwce_build_loop responses maxWait p hp e a = true ↔
      ∃ j, e + j * p < maxWait ∧ buildDone (responses (a + j + 1)) = true ∧
        ∀ i, i < j → buildTerminal (responses (a + i + 1)) = false) := by
  have hdt : ∀ k, buildDone (responses k) = true → buildTerminal (responses k) = true := by
    intro k hk
    cases hr : responses k with
    | ok st =>
      rw [hr] at hk
      simp only [buildDone] at hk
      simp [buildTerminal, hk]
    | parseError => rw [hr] at hk; simp [buildDone] at hk
    | httpError c => rw [hr] at hk; simp [buildDone] at hk
  intro n
  induction n with
  | zero =>
    intro e a h
    have he : ¬ e < maxWait := by omega
    rw [wait_for_bwce_build_loop, if_neg he]
    constructor
    · intro hfalse; simp at hfalse
    · rintro ⟨j, hj, -, -⟩; omega
  | succ n ih =>
    intro e a h
    by_cases he : e < maxWait
    · rw [wait_for_bwce_build_loop, if_pos he]
      cases hr : responses (a + 1) with
      | ok st =>
        by_cases hd : buildStatusDone (strLower st) = true
        · simp only [hd, if_true]
          constructor
          · intro _
            refine ⟨0, by omega, ?_, by omega⟩
            rw [show a + 0 + 1 = a + 1 by omega, hr]
            simpa [buildDone] using hd
          · intro _; trivial
        · by_cases hf : buildStatusFailed (strLower st) = true
          · simp only [hd, hf, Bool.false_eq_true, if_false, if_true]
            constructor
            · intro hfalse; simp at hfalse
            · rintro ⟨j, hj, hdone, hterm⟩
              cases j with
              | zero =>
                rw [show a + 0 + 1 = a + 1 by omega, hr] at hdone
                simp [buildDone, hd] at hdone
              | succ k =>
                have h0 := hterm 0 (by omega)
                rw [show a + 0 + 1 = a + 1 by omega, hr] at h0
                simp [buildTerminal, hf] at h0
          · simp only [hd, hf, Bool.false_eq_true, if_false]
            rw [ih (e + p) (a + 1) (by omega)]
            apply poll_shift_iff (fun k => buildDone (responses k))
              (fun k => buildTerminal (responses k)) hdt
            rw [hr]
            simp [buildTerminal, hd, hf]
      | parseError =>
        show wait_for_bwce_build_loop responses maxWait p hp (e + p) (a + 1) = true ↔
          ∃ j, e + j * p < maxWait ∧ buildDone (responses (a + j + 1)) = true ∧
            ∀ i, i < j → buildTerminal (responses (a + i + 1)) = false
        rw [ih (e + p) (a + 1) (by omega)]
        apply poll_shift_iff (fun k => buildDone (responses k))
          (fun k => buildTerminal (responses k)) hdt
        rw [hr]
        simp [buildTerminal]
      | httpError c =>
        show wait_for_bwce_build_loop responses maxWait p hp (e + p) (a + 1) = true ↔
          ∃ j, e + j * p < maxWait ∧ buildDone (responses (a + j + 1)) = true ∧
            ∀ i, i < j → buildTerminal (responses (a + i + 1)) = false
        rw [ih (e + p) (a + 1) (by omega)]
        apply poll_shift_iff (fun k => buildDone (responses k))
          (fun k => buildTerminal (responses k)) hdt
        rw [hr]
        simp [buildTerminal]
    · rw [wait_for_bwce_build_loop, if_neg he]
      constructor
      · intro hfalse; simp at hfalse
      · rintro ⟨j, hj, -, -⟩; omega

theorem cap_loop_shape (capName dpId capId : String) (responses : Nat → Poll)
    (maxWait p : Nat) (hp : 0 < p) :
    ∀ n e a, maxWait - e ≤ n →
    (∃ e2 a2, check_capability_status_loop capName dpId capId responses
          maxWait p hp e a =
        { success := true, status := "green", elapsed_time := e2, attempts := a2 } ∧
      capAttemptDecision capName dpId capId (responses a2) = true) ∨
    (∃ e2 a2, maxWait ≤ e2 ∧ a + 1 ≤ a2 ∧
      check_capability_status_loop capName dpId capId responses maxWait p hp e a =
        { success := false, status := "timeout", elapsed_time := e2, attempts := a2 }) := by
  intro n
  induction n with
  | zero =>
    intro e a h
    have he : e ≥ maxWait := by omega
    right
    exact ⟨e, a + 1, by omega, by omega, by rw [check_capability_status_loop, if_pos he]⟩
  | succ n ih =>
    intro e a h
    by_cases he : e ≥ maxWait
    · right
      exact ⟨e, a + 1, by omega, by omega, by rw [check_capability_status_loop, if_pos he]⟩
    · by_cases hdec : capAttemptDecision capName dpId capId (responses (a + 1)) = true
      · left
        refine ⟨e, a + 1, ?_, hdec⟩
        rw [check_capability_status_loop, if_neg he, if_pos hdec]
      · have heq : check_capability_status_loop capName dpId capId responses
            maxWait p hp e a =
            check_capability_status_loop capName dpId capId responses
              maxWait p hp (e + p) (a + 1) := by
          rw [check_capability_status_loop, if_neg he, if_neg hdec]
        rw [heq]
        rcases ih (e + p) (a + 1) (by omega) with ⟨e2, a2, h1, h2⟩ | ⟨e2, a2, h1, h2, h3⟩
        · exact Or.inl ⟨e2, a2, h1, h2⟩
        · exact Or.inr ⟨e2, a2, h1, by omega, h3⟩

theorem cap_loop_success_iff (capName dpId capId : String) (responses : Nat → Poll)
    (maxWait p : Nat) (hp : 0 < p) :
    ∀ n e a, maxWait - e ≤ n →
    ((check_capability_status_loop capName dpId capId responses
        maxWait p hp e a).success = true ↔
      ∃ j, e + j * p < maxWait ∧
        capAttemptDecision capName dpId capId (responses (a + j + 1)) = true ∧
        ∀ i, i < j →
          capAttemptDecision capName dpId capId (responses (a + i + 1)) = false) := by
  intro n
  induction n with
  | zero =>
    intro e a h
    have he : e ≥ maxWait := by omega
    rw [check_capability_status_loop, if_pos he]
    constructor
    · intro hfalse; simp at hfalse
    · rintro ⟨j, hj, -, -⟩; omega
  | succ n ih =>
    intro e a h
    by_cases he : e ≥ maxWait
    · rw [check_capability_status_loop, if_pos he]
      constructor
      · intro hfalse; simp at hfalse
      · rintro ⟨j, hj, -, -⟩; omega
    · by_cases hdec : capAttemptDecision capName dpId capId (responses (a + 1)) = true
      · rw [check_capability_status_loop, if_neg he, if_pos hdec]
        constructor
        · intro _
          refine ⟨0, by omega, ?_, by omega⟩
          rw [show a + 0 + 1 = a + 1 by omega]
          exact hdec
        · intro _; trivial
      · rw [check_capability_status_loop, if_neg he, if_neg hdec]
        rw [ih (e + p) (a + 1) (by omega)]
        apply poll_shift_iff
          (fun k => capAttemptDecision capName dpId capId (responses k))
          (fun k => capAttemptDecision capName dpId capId (responses k))
          (fun _ hk => hk)
        simpa using hdec

theorem dp_loop_shape (target : Option String) (responses : Nat → Poll)
    (finalResp : Poll) (maxWait p : Nat) (hp : 0 < p) :
    ∀ n e a, maxWait - e ≤ n →
    (∃ dps e2 a2, responses a2 = Poll.ok dps ∧ dps.isEmpty = false ∧
        pollAllGreen target dps = true ∧
      check_dataplane_status_loop target responses finalResp maxWait p hp e a =
        dpSuccessResult target dps e2 a2) ∨
    (∃ e2 a2, maxWait ≤ e2 ∧ a + 1 ≤ a2 ∧
      check_dataplane_status_loop target responses finalResp maxWait p hp e a =
        dpTimeoutResult finalResp e2 a2) := by
  intro n
  induction n with
  | zero =>
    intro e a h
    have he : e ≥ maxWait := by omega
    right
    exact ⟨e, a + 1, by omega, by omega, by rw [check_dataplane_status_loop, if_pos he]⟩
  | succ n ih =>
    intro e a h
    by_cases he : e ≥ maxWait
    · right
      exact ⟨e, a + 1, by omega, by omega, by rw [check_dataplane_status_loop, if_pos he]⟩
    · cases hr : responses (a + 1) with
      | ok dps =>
        by_cases hemp : dps.isEmpty
        · have heq : check_dataplane_status_loop target responses finalResp
              maxWait p hp e a =
              check_dataplane_status_loop target responses finalResp maxWait p hp
                (e + p) (a + 1) := by
            rw [check_dataplane_status_loop, if_neg he, hr]
            simp [hemp]
          rw [heq]
          rcases ih (e + p) (a + 1) (by omega) with ⟨dps2, e2, a2, h1, h2, h3, h4⟩ |
            ⟨e2, a2, h1, h2, h3⟩
          · exact Or.inl ⟨dps2, e2, a2, h1, h2, h3, h4⟩
          · exact Or.inr ⟨e2, a2, h1, by omega, h3⟩
        · by_cases hgreen : pollAllGreen target dps = true
          · left
            refine ⟨dps, e, a + 1, hr, by simpa using hemp, hgreen, ?_⟩
            rw [check_dataplane_status_loop, if_neg he, hr]
            simp [hemp, hgreen]
          · have heq : check_dataplane_status_loop target responses finalResp
                maxWait p hp e a =
                check_dataplane_status_loop target responses finalResp maxWait p hp
                  (e + p) (a + 1) := by
              rw [check_dataplane_status_loop, if_neg he, hr]
              simp [hemp, hgreen]
            rw [heq]
            rcases ih (e + p) (a + 1) (by omega) with ⟨dps2, e2, a2, h1, h2, h3, h4⟩ |
              ⟨e2, a2, h1, h2, h3⟩
            · exact Or.inl ⟨dps2, e2, a2, h1, h2, h3, h4⟩
            · exact Or.inr ⟨e2, a2, h1, by omega, h3⟩
      | httpError c =>
        have heq : check_dataplane_status_loop target responses finalResp
            maxWait p hp e a =
            check_dataplane_status_loop target responses finalResp maxWait p hp
              (e + p) (a + 1) := by
          rw [check_dataplane_status_loop, if_neg he, hr]
        rw [heq]
        rcases ih (e + p) (a + 1) (by omega) with ⟨dps2, e2, a2, h1, h2, h3, h4⟩ |
          ⟨e2, a2, h1, h2, h3⟩
        · exact Or.inl ⟨dps2, e2, a2, h1, h2, h3, h4⟩
        · exact Or.inr ⟨e2, a2, h1, by omega, h3⟩
      | exn =>
        have heq : check_dataplane_status_loop target responses finalResp
            maxWait p hp e a =
            check_dataplane_status_loop target responses finalResp maxWait p hp
              (e + p) (a + 1) := by
          rw [check_dataplane_status_loop, if_neg he, hr]
        rw [heq]
        rcases ih (e + p) (a + 1) (by omega) with ⟨dps2, e2, a2, h1, h2, h3, h4⟩ |
          ⟨e2, a2, h1, h2, h3⟩
        · exact Or.inl ⟨dps2, e2, a2, h1, h2, h3, h4⟩
        · exact Or.inr ⟨e2, a2, h1, by omega, h3⟩

theorem ceil_div_step (M p : Nat) (hp : 0 < p) (hM : 1 ≤ M) :
    1 + (M - p + p - 1) / p ≤ (M + p - 1) / p := by
  by_cases hMp : M < p
  · have h1 : M - p + p - 1 = p - 1 := by omega
    rw [h1, Nat.div_eq_of_lt (by omega : p - 1 < p)]
    have h2 : p ≤ M + p - 1 := by omega
    have := (Nat.one_le_div_iff hp).mpr h2
    omega
  · have h1 : M - p + p - 1 = M - 1 := by omega
    have h2 : M + p - 1 = M - 1 + p := by omega
    rw [h1, h2, Nat.add_div_right _ hp]
    omega

theorem dp_loop_attempts_bound (target : Option String) (responses : Nat → Poll)
    (finalResp : Poll) (maxWait p : Nat) (hp : 0 < p) :
    ∀ n e a, maxWait - e ≤ n →
    (check_dataplane_status_loop target responses finalResp maxWait p hp
        e a).attempts ≤ a + (maxWait - e + p - 1) / p + 1 := by
  intro n
  induction n with
  | zero =>
    intro e a h
    have he : e ≥ maxWait := by omega
    rw [check_dataplane_status_loop, if_pos he]
    have hta : (dpTimeoutResult finalResp e (a + 1)).attempts = a + 1 := by
      unfold dpTimeoutResult
      cases finalResp with
      | ok dps => by_cases hemp : dps.isEmpty <;> simp [hemp]
      | httpError c => rfl
      | exn => rfl
    rw [hta]
    generalize (maxWait - e + p - 1) / p = Y
    omega
  | succ n ih =>
    intro e a h
    by_cases he : e ≥ maxWait
    · rw [check_dataplane_status_loop, if_pos he]
      have hta : (dpTimeoutResult finalResp e (a + 1)).attempts = a + 1 := by
        unfold dpTimeoutResult
        cases finalResp with
        | ok dps => by_cases hemp : dps.isEmpty <;> simp [hemp]
        | httpError c => rfl
        | exn => rfl
      rw [hta]
      generalize (maxWait - e + p - 1) / p = Y
      omega
    · have hstep := ceil_div_step (maxWait - e) p hp (by omega)
      have harg : maxWait - (e + p) = maxWait - e - p := by omega
      have hrec : ∀ hres :
          (check_dataplane_status_loop target responses finalResp maxWait p hp
            e a) =
          (check_dataplane_status_loop target responses finalResp maxWait p hp
            (e + p) (a + 1)), True := fun _ => trivial
      clear hrec
      have hihb := ih (e + p) (a + 1) (by omega)
      rw [harg] at hihb
      cases hr : responses (a + 1) with
      | ok dps =>
        by_cases hemp : dps.isEmpty
        · have heq : check_dataplane_status_loop target responses finalResp
              maxWait p hp e a =
              check_dataplane_status_loop target responses finalResp maxWait p hp
                (e + p) (a + 1) := by
            rw [check_dataplane_status_loop, if_neg he, hr]
            simp [hemp]
          rw [heq]
          generalize hX : (maxWait - e - p + p - 1) / p = X at *
          generalize hY : (maxWait - e + p - 1) / p = Y at *
          omega
        · by_cases hgreen : pollAllGreen target dps = true
          · have heq : check_dataplane_status_loop target responses finalResp
                maxWait p hp e a = dpSuccessResult target dps e (a + 1) := by
              rw [check_dataplane_status_loop, if_neg he, hr]
              simp [hemp, hgreen]
            rw [heq]
            simp only [dpSuccessResult]
            generalize (maxWait - e + p - 1) / p = Y
            omega
          · have heq : check_dataplane_status_loop target responses finalResp
                maxWait p hp e a =
                check_dataplane_status_loop target responses finalResp maxWait p hp
                  (e + p) (a + 1) := by
              rw [check_dataplane_status_loop, if_neg he, hr]
              simp [hemp, hgreen]
            rw [heq]
            generalize hX : (maxWait - e - p + p - 1) / p = X at *
            generalize hY : (maxWait - e + p - 1) / p = Y at *
            omega
      | httpError c =>
        have heq : check_dataplane_status_loop target responses finalResp
            maxWait p hp e a =
            check_dataplane_status_loop target responses finalResp maxWait p hp
              (e + p) (a + 1) := by
          rw [check_dataplane_status_loop, if_neg he, hr]
        rw [heq]
        generalize hX : (maxWait - e - p + p - 1) / p = X at *
        generalize hY : (maxWait - e + p - 1) / p = Y at *
        omega
      | exn =>
        have heq : check_dataplane_status_loop target responses finalResp
            maxWait p hp e a =
            check_dataplane_status_loop target responses finalResp maxWait p hp
              (e + p) (a + 1) := by
          rw [check_dataplane_status_loop, if_neg he, hr]
        rw [heq]
        generalize hX : (maxWait - e - p + p - 1) / p = X at *
        generalize hY : (maxWait - e + p - 1) / p = Y at *
        omega

theorem cap_loop_attempts_bound (capName dpId capId : String)
    (responses : Nat → Poll) (maxWait p : Nat) (hp : 0 < p) :
    ∀ n e a, maxWait - e ≤ n →
    (check_capability_status_loop capName dpId capId responses maxWait p hp
        e a).attempts ≤ a + (maxWait - e + p - 1) / p + 1 := by
  intro n
  induction n with
  | zero =>
    intro e a h
    have he : e ≥ maxWait := by omega
    rw [check_capability_status_loop, if_pos he]
    generalize (maxWait - e + p - 1) / p = Y
    simp
  | succ n ih =>
    intro e a h
    by_cases he : e ≥ maxWait
    · rw [check_capability_status_loop, if_pos he]
      generalize (maxWait - e + p - 1) / p = Y
      simp
    · have hstep := ceil_div_step (maxWait - e) p hp (by omega)
      have harg : maxWait - (e + p) = maxWait - e - p := by omega
      have hihb := ih (e + p) (a + 1) (by omega)
      rw [harg] at hihb
      by_cases hdec : capAttemptDecision capName dpId capId (responses (a + 1)) = true
      · rw [check_capability_status_loop, if_neg he, if_pos hdec]
        generalize (maxWait - e + p - 1) / p = Y
        simp
      · rw [check_capability_status_loop, if_neg he, if_neg hdec]
        generalize hX : (maxWait - e - p + p - 1) / p = X at *
        generalize hY : (maxWait - e + p - 1) / p = Y at *
        omega

/-! ## Characterization of the per-poll aggregate `all_green` -/

theorem dpFoldStep_spec (target : Option String) :
    ∀ (dps : List Dataplane) (acc : Bool × Bool),
    dps.foldl (dpFoldStep target) acc =
      (acc.1 && (dps.filter (dpExamined target)).all
          (fun dp => dp.capabilities.all capServicesOk && (dp.status == "green")),
       acc.2 || !(dps.filter (dpExamined target)).isEmpty) := by
  intro dps
  induction dps with
  | nil => intro acc; simp
  | cons dp rest ih =>
    intro acc
    rw [List.foldl_cons]
    by_cases hx : dpExamined target dp = true
    · rw [ih]
      have hstep : dpFoldStep target acc dp =
          ((acc.1 && dp.capabilities.all capServicesOk) && (dp.status == "green"),
            true) := by
        simp [dpFoldStep, hx]
      rw [hstep, List.filter_cons_of_pos hx]
      simp [Bool.and_assoc]
    · have hx2 : dpExamined target dp = false := by simpa using hx
      rw [ih]
      have hstep : dpFoldStep target acc dp = acc := by
        simp [dpFoldStep, hx2]
      rw [hstep, List.filter_cons_of_neg hx]

theorem pollAllGreen_iff (target : Option String) (dps : List Dataplane) :
    pollAllGreen target dps = true ↔
      ((∀ dp ∈ dps, dpExamined target dp = true →
          dp.status = "green" ∧ ∀ cap ∈ dp.capabilities, ∀ svc ∈ cap.services,
            svc.status = "green" ∨ svc.status = "absent") ∧
       (∀ t, target = some t → ∃ dp ∈ dps, dp.dp_id = t)) := by
  have hbody : ∀ dp : Dataplane,
      (dp.capabilities.all capServicesOk && (dp.status == "green")) = true ↔
      (dp.status = "green" ∧ ∀ cap ∈ dp.capabilities, ∀ svc ∈ cap.services,
        svc.status = "green" ∨ svc.status = "absent") := by
    intro dp
    simp [List.all_eq_true, capServicesOk, svcKeepsGreen, and_comm]
  unfold pollAllGreen
  rw [dpFoldStep_spec]
  simp only [Bool.true_and, Bool.false_or]
  cases target with
  | none =>
    simp only [List.all_eq_true]
    constructor
    · intro h
      refine ⟨fun dp hdp hex =>
        (hbody dp).mp (h dp (List.mem_filter.mpr ⟨hdp, hex⟩)), ?_⟩
      intro t ht
      exact absurd ht (by simp)
    · rintro ⟨h, -⟩ dp hdp
      have h2 := List.mem_filter.mp hdp
      exact (hbody dp).mpr (h dp h2.1 h2.2)
  | some t =>
    have hkey : (((dps.filter (dpExamined (some t))).isEmpty : Bool) = false) ↔
        ∃ dp ∈ dps, dp.dp_id = t := by
      rw [List.isEmpty_eq_false_iff_exists_mem]
      constructor
      · rintro ⟨dp, hdp⟩
        have h1 := List.mem_filter.mp hdp
        exact ⟨dp, h1.1, by simpa [dpExamined] using h1.2⟩
      · rintro ⟨dp, hdp, hid⟩
        exact ⟨dp, List.mem_filter.mpr ⟨hdp, by simp [dpExamined, hid]⟩⟩
    cases hemp : ((dps.filter (dpExamined (some t))).isEmpty : Bool) with
    | true =>
      simp only [hemp, Bool.not_true, Bool.not_false, if_true]
      constructor
      · intro h
        simp at h
      · rintro ⟨-, h2⟩
        have := hkey.mpr (h2 t rfl)
        rw [hemp] at this
        exact absurd this (by simp)
    | false =>
      simp only [hemp, Bool.not_false, Bool.not_true, Bool.false_eq_true, if_false,
        List.all_eq_true]
      constructor
      · intro h
        refine ⟨fun dp hdp hex =>
          (hbody dp).mp (h dp (List.mem_filter.mpr ⟨hdp, hex⟩)), ?_⟩
        rintro t2 ht2
        injection ht2 with ht2
        subst ht2
        exact hkey.mp hemp
      · rintro ⟨h, -⟩ dp hdp
        have h2 := List.mem_filter.mp hdp
        exact (hbody dp).mpr (h dp h2.1 h2.2)

/-- Every timeout return of `check_dataplane_status` has `success = False`,
`all_green = False`, `error = "Timeout reached"` and carries the break-time
elapsed value and attempt count. -/
theorem dpTimeoutResult_fields (f : Poll) (e a : Nat) :
    (dpTimeoutResult f e a).success = false ∧
    (dpTimeoutResult f e a).all_green = false ∧
    (dpTimeoutResult f e a).error = some "Timeout reached" ∧
    (dpTimeoutResult f e a).elapsed_time = e ∧
    (dpTimeoutResult f e a).attempts = a := by
  unfold dpTimeoutResult
  cases f with
  | ok dps => by_cases hemp : dps.isEmpty <;> simp [hemp]
  | httpError c => simp
  | exn => simp

/-- C9: every dict returned by `check_dataplane_status` satisfies the
invariant `success == all_green`: the success return carries both `True`, and
both timeout returns carry both `False`. -/
theorem c9_success_iff_all_green (target : Option String) (responses : Nat → Poll)
    (finalResp : Poll) (maxWait p : Nat) (hp : 0 < p) :
    (check_dataplane_status target responses finalResp maxWait p hp).success =
    (check_dataplane_status target responses finalResp maxWait p hp).all_green := by
  unfold check_dataplane_status
  rcases dp_loop_shape target responses finalResp maxWait p hp (maxWait - 0) 0 0
      le_rfl with ⟨dps, e2, a2, -, -, -, h4⟩ | ⟨e2, a2, -, -, h3⟩
  · rw [h4]; rfl
  · rw [h3]
    have h := dpTimeoutResult_fields finalResp e2 a2
    rw [h.1, h.2.1]

/-- Witness for C9 on an always-failing endpoint. -/
theorem c9_success_iff_all_green_witness :
    0 < 10 ∧
    (check_dataplane_status none (fun _ => Poll.exn) Poll.exn 5 10 (by decide)).success =
    (check_dataplane_status none (fun _ => Poll.exn) Poll.exn 5 10 (by decide)).all_green :=
  ⟨by decide, c9_success_iff_all_green none (fun _ => Poll.exn) Poll.exn 5 10 (by decide)⟩

/-- C3: for positive `max_wait_seconds` and `poll_interval_seconds` and any
response sequence, every polling loop is bounded: once the elapsed time
reaches `max_wait_seconds` the loop returns the timeout result with
`success = False` instead of polling again, and the attempt counter of every
call is at most `⌈maxWait / pollInterval⌉ + 1`. -/
theorem c3_polling_loops_terminate (target : Option String)
    (responses : Nat → Poll) (finalResp : Poll) (dpId capId : String)
    (maxWait p : Nat) (hp : 0 < p) :
    (∀ e a, maxWait ≤ e →
      check_dataplane_status_loop target responses finalResp maxWait p hp e a =
        dpTimeoutResult finalResp e (a + 1) ∧
      (dpTimeoutResult finalResp e (a + 1)).success = false) ∧
    (∀ capName e a, maxWait ≤ e →
      check_capability_status_loop capName dpId capId responses maxWait p hp e a =
        { success := false, status := "timeout", elapsed_time := e,
          attempts := a + 1 } ∧
      ({ success := false, status := "timeout", elapsed_time := e,
          attempts := a + 1 } : CapResult).success = false) ∧
    (check_dataplane_status target responses finalResp maxWait p hp).attempts ≤
      (maxWait + p - 1) / p + 1 ∧
    (check_bwce_capability_status dpId capId responses maxWait p hp).attempts ≤
      (maxWait + p - 1) / p + 1 ∧
    (check_flogo_capability_status dpId capId responses maxWait p hp).attempts ≤
      (maxWait + p - 1) / p + 1 := by
  refine ⟨?_, ?_, ?_, ?_, ?_⟩
  · intro e a he
    exact ⟨by rw [check_dataplane_status_loop, if_pos he],
      (dpTimeoutResult_fields finalResp e (a + 1)).1⟩
  · intro capName e a he
    exact ⟨by rw [check_capability_status_loop, if_pos he], rfl⟩
  · have h := dp_loop_attempts_bound target responses finalResp maxWait p hp
      (maxWait - 0) 0 0 le_rfl
    simpa using h
  · have h := cap_loop_attempts_bound "BWCE" dpId capId responses maxWait p hp
      (maxWait - 0) 0 0 le_rfl
    simpa using h
  · have h := cap_loop_attempts_bound "FLOGO" dpId capId responses maxWait p hp
      (maxWait - 0) 0 0 le_rfl
    simpa using h

/-- Witness for C3 on an always-failing endpoint with concrete bounds. -/
theorem c3_polling_loops_terminate_witness :
    0 < 10 ∧
    (check_dataplane_status none (fun _ => Poll.exn) Poll.exn 25 10 (by decide)).attempts ≤
      (25 + 10 - 1) / 10 + 1 ∧
    (check_bwce_capability_status "dp" "cap" (fun _ => Poll.exn) 25 10 (by decide)).attempts ≤
      (25 + 10 - 1) / 10 + 1 := by
  have h := c3_polling_loops_terminate none (fun _ => Poll.exn) Poll.exn "dp" "cap"
    25 10 (by decide)
  exact ⟨by decide, h.2.2.1, h.2.2.2.1⟩

/-- C4: when `check_dataplane_status` times out, the returned dict reports
partial success: `success = False`, `all_green = False`,
`error = "Timeout reached"`, the attempt count, and an elapsed time of at
least `max_wait_seconds`; when the final status fetch after the timeout
returns dataplanes, the dict carries their per-dataplane summaries, otherwise
its `dataplanes` and `dataplane_statuses` lists are empty. -/
theorem c4_timeout_partial_success (target : Option String)
    (responses : Nat → Poll) (finalResp : Poll) (maxWait p : Nat)
    (hp : 0 < p) (r : DpResult)
    (hr : r = check_dataplane_status target responses finalResp maxWait p hp)
    (hfail : r.success = false) :
    r.all_green = false ∧ r.error = some "Timeout reached" ∧
    maxWait ≤ r.elapsed_time ∧ 1 ≤ r.attempts ∧
    (∀ dps, finalResp = Poll.ok dps → dps ≠ [] →
      r.dataplanes = dps ∧ r.dataplane_statuses = dps.map mkFinalSummary) ∧
    ((¬ ∃ dps, finalResp = Poll.ok dps ∧ dps ≠ []) →
      r.dataplanes = [] ∧ r.dataplane_statuses = []) := by
  subst hr
  unfold check_dataplane_status at *
  rcases dp_loop_shape target responses finalResp maxWait p hp (maxWait - 0) 0 0
      le_rfl with ⟨dps, e2, a2, -, -, -, h4⟩ | ⟨e2, a2, h1, h2, h3⟩
  · rw [h4] at hfail
    simp [dpSuccessResult] at hfail
  · have h := dpTimeoutResult_fields finalResp e2 a2
    refine ⟨?_, ?_, ?_, ?_, ?_, ?_⟩
    · rw [h3, h.2.1]
    · rw [h3, h.2.2.1]
    · rw [h3, h.2.2.2.1]; omega
    · rw [h3, h.2.2.2.2]; omega
    · intro dps hfr hne
      subst hfr
      rw [h3]
      unfold dpTimeoutResult
      simp [hne]
    · intro hno
      rw [h3]
      unfold dpTimeoutResult
      cases finalResp with
      | ok dps =>
        have hdnil : dps = [] := by
          by_contra hcon
          exact hno ⟨dps, rfl, hcon⟩
        subst hdnil
        simp
      | httpError c => exact ⟨rfl, rfl⟩
      | exn => exact ⟨rfl, rfl⟩

/-- Witness for C4: a run that times out with an informative final fetch. -/
theorem c4_timeout_partial_success_witness :
    (check_dataplane_status none (fun _ => Poll.exn)
      (Poll.ok [⟨"dp-1", "yellow", "", false, []⟩]) 5 10 (by decide)).success
      = false ∧
    (check_dataplane_status none (fun _ => Poll.exn)
      (Poll.ok [⟨"dp-1", "yellow", "", false, []⟩]) 5 10 (by decide)).error
      = some "Timeout reached" := by
  have hfail : (check_dataplane_status none (fun _ => Poll.exn)
      (Poll.ok [⟨"dp-1", "yellow", "", false, []⟩]) 5 10 (by decide)).success
      = false := by
    simp [check_dataplane_status, check_dataplane_status_loop, dpTimeoutResult]
  have h := c4_timeout_partial_success none (fun _ => Poll.exn)
    (Poll.ok [⟨"dp-1", "yellow", "", false, []⟩]) 5 10 (by decide) _ rfl hfail
  exact ⟨hfail, h.2.1⟩

/-- C5: the only failure handling of the polling loops is a fixed
sleep-and-retry: a failing attempt (non-200, empty dataplane list, or raised
exception) advances the elapsed time by exactly `poll_interval_seconds` and
loops again, no exception propagates, and every exit path yields one of the
two result dict shapes. -/
theorem c5_fixed_sleep_retry (target : Option String) (responses : Nat → Poll)
    (finalResp : Poll) (dpId capId : String) (maxWait p : Nat) (hp : 0 < p)
    (e a : Nat) (hlt : e < maxWait)
    (hfail : failingPoll (responses (a + 1)) = true) :
    (check_dataplane_status_loop target responses finalResp maxWait p hp e a =
      check_dataplane_status_loop target responses finalResp maxWait p hp
        (e + p) (a + 1)) ∧
    (∀ capName, check_capability_status_loop capName dpId capId responses
        maxWait p hp e a =
      check_capability_status_loop capName dpId capId responses maxWait p hp
        (e + p) (a + 1)) ∧
    ((∃ dps e2 a2, check_dataplane_status_loop target responses finalResp
        maxWait p hp e a = dpSuccessResult target dps e2 a2) ∨
     (∃ e2 a2, check_dataplane_status_loop target responses finalResp
        maxWait p hp e a = dpTimeoutResult finalResp e2 a2)) := by
  have hng : ¬ e ≥ maxWait := by omega
  refine ⟨?_, ?_, ?_⟩
  · cases hr : responses (a + 1) with
    | ok dps =>
      rw [hr] at hfail
      simp only [failingPoll] at hfail
      rw [check_dataplane_status_loop, if_neg hng, hr]
      simp [hfail]
    | httpError c => rw [check_dataplane_status_loop, if_neg hng, hr]
    | exn => rw [check_dataplane_status_loop, if_neg hng, hr]
  · intro capName
    have hdec : capAttemptDecision capName dpId capId (responses (a + 1)) = false := by
      cases hr : responses (a + 1) with
      | ok dps =>
        rw [hr] at hfail
        simp only [failingPoll] at hfail
        simp [capAttemptDecision, hfail]
      | httpError c => simp [capAttemptDecision]
      | exn => simp [capAttemptDecision]
    rw [check_capability_status_loop, if_neg hng, if_neg (by simp [hdec])]
  · rcases dp_loop_shape target responses finalResp maxWait p hp (maxWait - e) e a
        le_rfl with ⟨dps, e2, a2, -, -, -, h4⟩ | ⟨e2, a2, -, -, h3⟩
    · exact Or.inl ⟨dps, e2, a2, h4⟩
    · exact Or.inr ⟨e2, a2, h3⟩

/-- Witness for C5: a 500 response at the first attempt retries after exactly
one poll interval. -/
theorem c5_fixed_sleep_retry_witness :
    check_dataplane_status_loop none (fun _ => Poll.httpError 500) Poll.exn
      120 10 (by decide) 0 0 =
    check_dataplane_status_loop none (fun _ => Poll.httpError 500) Poll.exn
      120 10 (by decide) 10 1 :=
  (c5_fixed_sleep_retry none (fun _ => Poll.httpError 500) Poll.exn "dp" "cap"
    120 10 (by decide) 0 0 (by decide) (by decide)).1

/-- C6: `_wait_for_bwce_build` returns `True` exactly when some poll made
within `max_wait` seconds reports a status of success/completed
(case-insensitively, earlier polls having been non-terminal); it returns
`False` immediately on a failed/error status and `False` once `max_wait`
elapses without a terminal status. -/
theorem c6_wait_for_bwce_build_spec (responses : Nat → BuildPoll)
    (maxWait p : Nat) (hp : 0 < p) :
    (wait_for_bwce_build responses maxWait p hp = true ↔
      ∃ j, j * p < maxWait ∧ buildDone (responses (j + 1)) = true ∧
        ∀ i, i < j → buildTerminal (responses (i + 1)) = false) ∧
    (∀ e a st, e < maxWait → responses (a + 1) = BuildPoll.ok st →
      buildStatusFailed (strLower st) = true →
      wait_for_bwce_build_loop responses maxWait p hp e a = false) ∧
    (∀ e a, ¬ e < maxWait →
      wait_for_bwce_build_loop responses maxWait p hp e a = false) := by
  refine ⟨?_, ?_, ?_⟩
  · have h := build_loop_true_iff responses maxWait p hp (maxWait - 0) 0 0 le_rfl
    simp only [Nat.zero_add] at h
    exact h
  · intro e a st hlt hr hf
    have hd : buildStatusDone (strLower st) = false := by
      have h2 : strLower st = "failed" ∨ strLower st = "error" := by
        simpa [buildStatusFailed] using hf
      rcases h2 with h2 | h2 <;> simp [buildStatusDone, h2]
    rw [wait_for_bwce_build_loop, if_pos hlt, hr]
    simp [hd, hf]
  · intro e a hge
    rw [wait_for_bwce_build_loop, if_neg hge]

/-- Witness for C6: an immediate SUCCESS report yields `True`. -/
theorem c6_wait_for_bwce_build_spec_witness :
    wait_for_bwce_build (fun _ => BuildPoll.ok "SUCCESS") 300 10 (by decide) = true := by
  have h := (c6_wait_for_bwce_build_spec (fun _ => BuildPoll.ok "SUCCESS") 300 10
    (by decide)).1
  exact h.mpr ⟨0, by decide, by decide, fun i hi => absurd hi (by omega)⟩

/-- C2 counterexample: both capability checkers return `success = True` with
status `"green"` for a capability whose own status is green while one of its
services is red — the aggregate the claim describes (capability AND all its
services green) is false there. -/
theorem c2_counterexample :
    ((check_bwce_capability_status "dp-1" "cap-1"
        (fun _ => Poll.ok [⟨"dp-1", "green", "", true,
          [⟨"BWCE", "cap-1", "", "green", [⟨"svc", "red"⟩]⟩]⟩])
        300 15 (by decide)).success = true ∧
     (check_bwce_capability_status "dp-1" "cap-1"
        (fun _ => Poll.ok [⟨"dp-1", "green", "", true,
          [⟨"BWCE", "cap-1", "", "green", [⟨"svc", "red"⟩]⟩]⟩])
        300 15 (by decide)).status = "green" ∧
     (([⟨"svc", "red"⟩] : List Service).all (fun svc => svc.status == "green")) = false) ∧
    ((check_flogo_capability_status "dp-2" "cap-2"
        (fun _ => Poll.ok [⟨"dp-2", "green", "", true,
          [⟨"FLOGO", "cap-2", "", "green", [⟨"svc", "red"⟩]⟩]⟩])
        300 15 (by decide)).success = true ∧
     (check_flogo_capability_status "dp-2" "cap-2"
        (fun _ => Poll.ok [⟨"dp-2", "green", "", true,
          [⟨"FLOGO", "cap-2", "", "green", [⟨"svc", "red"⟩]⟩]⟩])
        300 15 (by decide)).status = "green" ∧
     (([⟨"svc", "red"⟩] : List Service).all (fun svc => svc.status == "green")) = false) := by
  have hb : check_bwce_capability_status "dp-1" "cap-1"
      (fun _ => Poll.ok [⟨"dp-1", "green", "", true,
        [⟨"BWCE", "cap-1", "", "green", [⟨"svc", "red"⟩]⟩]⟩])
      300 15 (by decide) =
      { success := true, status := "green", elapsed_time := 0, attempts := 1 } := by
    rw [check_bwce_capability_status, check_capability_status_loop]
    rw [if_neg (by decide), if_pos (by decide)]
  have hf : check_flogo_capability_status "dp-2" "cap-2"
      (fun _ => Poll.ok [⟨"dp-2", "green", "", true,
        [⟨"FLOGO", "cap-2", "", "green", [⟨"svc", "red"⟩]⟩]⟩])
      300 15 (by decide) =
      { success := true, status := "green", elapsed_time := 0, attempts := 1 } := by
    rw [check_flogo_capability_status, check_capability_status_loop]
    rw [if_neg (by decide), if_pos (by decide)]
  exact ⟨⟨by rw [hb], by rw [hb], by decide⟩, ⟨by rw [hf], by rw [hf], by decide⟩⟩

/-- C2 (amended): the capability checkers return `success = True` with status
`"green"` iff some poll before the timeout yields a 200 response in which the
first dataplane matching `dataplane_id` carries a matching capability whose
OWN status is `"green"` — the per-service statuses are printed but never
aggregated into the decision, which equals `cap.status == "green"` for the
matched capability regardless of its services. -/
theorem c2_amended_capability_green_only (dpId capId : String)
    (responses : Nat → Poll) (maxWait p : Nat) (hp : 0 < p) :
    ((check_bwce_capability_status dpId capId responses maxWait p hp).success = true ↔
      ∃ j, j * p < maxWait ∧
        capAttemptDecision "BWCE" dpId capId (responses (j + 1)) = true ∧
        ∀ i, i < j → capAttemptDecision "BWCE" dpId capId (responses (i + 1)) = false) ∧
    ((check_flogo_capability_status dpId capId responses maxWait p hp).success = true ↔
      ∃ j, j * p < maxWait ∧
        capAttemptDecision "FLOGO" dpId capId (responses (j + 1)) = true ∧
        ∀ i, i < j → capAttemptDecision "FLOGO" dpId capId (responses (i + 1)) = false) ∧
    ((check_bwce_capability_status dpId capId responses maxWait p hp).success = true →
      (check_bwce_capability_status dpId capId responses maxWait p hp).status = "green") ∧
    ((check_flogo_capability_status dpId capId responses maxWait p hp).success = true →
      (check_flogo_capability_status dpId capId responses maxWait p hp).status = "green") ∧
    (∀ capName dps dp cap, findDp dpId dps = some dp →
      findCap capName capId dp.capabilities = some cap →
      capAttemptDecision capName dpId capId (Poll.ok dps) = (cap.status == "green")) := by
  refine ⟨?_, ?_, ?_, ?_, ?_⟩
  · have h := cap_loop_success_iff "BWCE" dpId capId responses maxWait p hp
      (maxWait - 0) 0 0 le_rfl
    simp only [Nat.zero_add] at h
    exact h
  · have h := cap_loop_success_iff "FLOGO" dpId capId responses maxWait p hp
      (maxWait - 0) 0 0 le_rfl
    simp only [Nat.zero_add] at h
    exact h
  · intro hs
    unfold check_bwce_capability_status at *
    rcases cap_loop_shape "BWCE" dpId capId responses maxWait p hp (maxWait - 0)
        0 0 le_rfl with ⟨e2, a2, h1, -⟩ | ⟨e2, a2, -, -, h1⟩
    · rw [h1]
    · rw [h1] at hs
      simp at hs
  · intro hs
    unfold check_flogo_capability_status at *
    rcases cap_loop_shape "FLOGO" dpId capId responses maxWait p hp (maxWait - 0)
        0 0 le_rfl with ⟨e2, a2, h1, -⟩ | ⟨e2, a2, -, -, h1⟩
    · rw [h1]
    · rw [h1] at hs
      simp at hs
  · intro capName dps dp cap hdp hcap
    have hne : dps.isEmpty = false := by
      cases dps with
      | nil => simp [findDp] at hdp
      | cons d t => rfl
    simp [capAttemptDecision, hne, hdp, hcap]

/-- Witness for C2's amended theorem: a green capability with a red service is
accepted at the first poll. -/
theorem c2_amended_capability_green_only_witness :
    (check_bwce_capability_status "dp-1" "cap-1"
      (fun _ => Poll.ok [⟨"dp-1", "green", "", true,
        [⟨"BWCE", "cap-1", "", "green", [⟨"svc", "red"⟩]⟩]⟩])
      300 15 (by decide)).success = true := by
  have h := (c2_amended_capability_green_only "dp-1" "cap-1"
    (fun _ => Poll.ok [⟨"dp-1", "green", "", true,
      [⟨"BWCE", "cap-1", "", "green", [⟨"svc", "red"⟩]⟩]⟩])
    300 15 (by decide)).1
  exact h.mpr ⟨0, by decide, by decide, fun i hi => absurd hi (by omega)⟩

/-- C1 counterexample: a successful poll whose only dataplane is green but
carries a red-status capability (with no services) still computes
`all_green = True` — capability statuses are not part of the aggregate; and a
poll whose only service has status `"absent"` also computes
`all_green = True` although that service is not green. -/
theorem c1_counterexample :
    (check_dataplane_status none
        (fun _ => Poll.ok [⟨"dp-1", "green", "", true,
          [⟨"BWCE", "c1", "", "red", []⟩]⟩])
        Poll.exn 120 10 (by decide)).all_green = true ∧
    (([⟨"BWCE", "c1", "", "red", []⟩] : List Capability).all
      (fun cap => cap.status == "green")) = false ∧
    pollAllGreen none [⟨"dp-2", "green", "", true,
      [⟨"BWCE", "c2", "", "green", [⟨"svc", "absent"⟩]⟩]⟩] = true ∧
    (([⟨"svc", "absent"⟩] : List Service).all
      (fun svc => svc.status == "green")) = false := by
  have hpg : pollAllGreen none [⟨"dp-1", "green", "", true,
      [⟨"BWCE", "c1", "", "red", []⟩]⟩] = true := by decide
  have h : check_dataplane_status none
      (fun _ => Poll.ok [⟨"dp-1", "green", "", true,
        [⟨"BWCE", "c1", "", "red", []⟩]⟩])
      Poll.exn 120 10 (by decide) =
      dpSuccessResult none [⟨"dp-1", "green", "", true,
        [⟨"BWCE", "c1", "", "red", []⟩]⟩] 0 1 := by
    rw [check_dataplane_status, check_dataplane_status_loop]
    rw [if_neg (by decide)]
    simp only [List.isEmpty_cons, Bool.false_eq_true, if_false, hpg, if_true]
  refine ⟨?_, by decide, by decide, by decide⟩
  rw [h]
  rfl

/-- C1 (amended): the aggregate `all_green` of a successful poll is `True`
iff (when a target dataplane id is given, some dataplane matches it and)
every examined dataplane has status `"green"` and every service of every
capability of those dataplanes has status `"green"` or `"absent"`; the
capability statuses themselves are not consulted.  Moreover a `success = True`
return of `check_dataplane_status` arises exactly from a poll whose
`all_green` aggregate is `True`. -/
theorem c1_amended_all_green_characterization (target : Option String)
    (dps : List Dataplane) :
    (pollAllGreen target dps = true ↔
      ((∀ dp ∈ dps, dpExamined target dp = true →
          dp.status = "green" ∧ ∀ cap ∈ dp.capabilities, ∀ svc ∈ cap.services,
            svc.status = "green" ∨ svc.status = "absent") ∧
       (∀ t, target = some t → ∃ dp ∈ dps, dp.dp_id = t))) ∧
    (∀ (responses : Nat → Poll) (finalResp : Poll) (maxWait p : Nat)
      (hp : 0 < p),
      (check_dataplane_status target responses finalResp maxWait p hp).success
        = true →
      ∃ dps2 a2, responses a2 = Poll.ok dps2 ∧ pollAllGreen target dps2 = true ∧
        (check_dataplane_status target responses finalResp maxWait p hp).all_green
          = true) := by
  refine ⟨pollAllGreen_iff target dps, ?_⟩
  intro responses finalResp maxWait p hp hs
  unfold check_dataplane_status at *
  rcases dp_loop_shape target responses finalResp maxWait p hp (maxWait - 0) 0 0
      le_rfl with ⟨dps2, e2, a2, hresp, -, hgreen, heq⟩ | ⟨e2, a2, -, -, heq⟩
  · exact ⟨dps2, a2, hresp, hgreen, by rw [heq]; rfl⟩
  · rw [heq, (dpTimeoutResult_fields finalResp e2 a2).1] at hs
    exact absurd hs (by simp)

/-- Witness for C1's amended theorem: a single green dataplane with no
capabilities satisfies the aggregate. -/
theorem c1_amended_all_green_characterization_witness :
    pollAllGreen none [⟨"dp-9", "green", "", true, []⟩] = true := by
  have h := (c1_amended_all_green_characterization none
    [⟨"dp-9", "green", "", true, []⟩]).1
  exact h.mpr ⟨by decide, fun t ht => nomatch ht⟩
